import Mathlib

/-!
# Verification of the versioned deployment and rollback engine

Shallow embedding of the core orchestration logic of `create-app.js`
(version ledger, backup/restore, change detection, semantic version bump,
blue-green deployment, health checking, generated-file installation) and
of the build-strategy selector documented in the repository's design notes.

JavaScript string primitives are modelled over `List Char` so that every
definition reduces in the kernel.
-/

namespace PoorMansLovable

/-! ## JS string primitives -/

/-- JS `String.prototype.split(sep)` for a single-character separator,
over char lists: `''.split(c) = ['']`, separators delimit (possibly empty)
fields. -/
def splitChar (c : Char) : List Char → List (List Char)
  | [] => [[]]
  | x :: xs =>
    let r := splitChar c xs
    if x = c then [] :: r
    else
      match r with
      | h :: t => (x :: h) :: t
      | [] => [[x]]

/-- JS `String.prototype.startsWith`. -/
def jsStartsWith (s pat : String) : Bool := pat.data.isPrefixOf s.data

/-- JS `String.prototype.endsWith`. -/
def jsEndsWith (s pat : String) : Bool := pat.data.isSuffixOf s.data

/-- JS `String.prototype.includes` (substring containment). -/
def jsIncludes (s pat : String) : Bool :=
  s.data.tails.any (fun t => pat.data.isPrefixOf t)

/-- JS `String.prototype.replace(str, str)` replaces only the FIRST
occurrence; for the single-character pattern used by
`currentVersion.replace('v', '')` this drops the first occurrence of `c`. -/
def removeFirst (c : Char) : List Char → List Char
  | [] => []
  | x :: xs => if x = c then xs else x :: removeFirst c xs

/-- JS `String.prototype.replace(/a/g, b)` for single characters, as used by
`version.replace(/\./g, '-')`. -/
def replaceAll (a b : Char) (s : String) : String :=
  ⟨s.data.map (fun c => if c = a then b else c)⟩

/-- Digits of a decimal numeral, most significant first (fuel-based so the
kernel can evaluate it). -/
def natDigits (fuel n : Nat) : List Char :=
  match fuel with
  | 0 => []
  | fuel + 1 =>
    if n < 10 then [Char.ofNat (48 + n)]
    else natDigits fuel (n / 10) ++ [Char.ofNat (48 + n % 10)]

/-- Decimal rendering of a `Nat`, standing for JS number-to-string coercion
inside template literals. -/
def natToStr (n : Nat) : String := ⟨natDigits (n + 1) n⟩

/-- Numeric value of a digit string; stands for JS `Number(s)` on the decimal
numerals that semantic-version components are (non-numeric input, which JS
would map to `NaN`, is mapped to 0 and is outside every claim's scope). -/
def jsNumber (s : List Char) : Nat :=
  if s ≠ [] ∧ s.all (·.isDigit) then
    s.foldl (fun n c => n * 10 + (c.toNat - 48)) 0
  else 0

/-! ## Node `path` primitives (posix) -/

/-- Segment resolution of Node's `path.normalize`: drops `''` and `'.'`
segments, lets `'..'` pop the previous real segment, and keeps leading
`'..'` segments of a relative path. `acc` holds resolved segments reversed. -/
def normSegs (acc : List (List Char)) : List (List Char) → List (List Char)
  | [] => acc.reverse
  | s :: rest =>
    if s = [] ∨ s = ['.'] then normSegs acc rest
    else if s = ['.', '.'] then
      match acc with
      | [] => normSegs [['.', '.']] rest
      | t :: ts => if t = ['.', '.'] then normSegs (s :: t :: ts) rest else normSegs ts rest
    else normSegs (s :: acc) rest

/-- Joins path segments with `'/'`. -/
def joinSegs : List (List Char) → List Char
  | [] => []
  | [s] => s
  | s :: rest => s ++ '/' :: joinSegs rest

/-- Node `path.normalize` (posix): resolves `.` and `..` segments, collapses
separators, keeps an absolute prefix (where `..` cannot climb above the
root). Trailing-separator preservation is irrelevant to the source's uses
and is not modelled. -/
def pathNormalize (p : String) : String :=
  let cs := p.data
  let isAbs := match cs with | '/' :: _ => true | _ => false
  let segs := normSegs [] (splitChar '/' cs)
  let segs := if isAbs then segs.dropWhile (· = ['.', '.']) else segs
  let body := joinSegs segs
  if isAbs then ⟨'/' :: body⟩
  else if body = [] then "." else ⟨body⟩

/-- Node `path.join(a, b)`: concatenation with a separator followed by
normalization. -/
def pathJoin (a b : String) : String := pathNormalize (a ++ "/" ++ b)

/-- The live directory of an app, `path.join('./tmp', appName)`. -/
def appPathOf (appName : String) : String := pathJoin "./tmp" appName

/-! ## Data model: the persisted version ledger

Mirrors the record pushed by `createApp`/`improveApp`
(`src/create-app.js`, lines 1790-1812 and 2375-2404). Pure run metadata
(`performance`, `createdAt`, `dockerLogs`, `attempts`) carries no
orchestration logic and is omitted. JS objects used as string maps are
association lists. -/

structure Version where
  version : String
  prompt : String
  improvements : List String
  containerName : String
  files : List String
  fileHashes : List (String × String)
  isActive : Bool
  dockerStatus : String
  dockerError : Option String
  parentVersion : Option String
  changedFiles : List String
  addedFiles : List String
  removedFiles : List String
  backupPath : Option String
  deriving Repr, DecidableEq

structure App where
  name : String
  currentVersion : String
  port : Option Nat
  versions : List Version
  deriving Repr, DecidableEq

structure Db where
  apps : List App
  nextPort : Nat
  deriving Repr, DecidableEq

/-- `findApp` (line 1457): `db.data.apps.find(app => app.name === appName)`. -/
def findApp (db : Db) (appName : String) : Option App :=
  db.apps.find? (·.name == appName)

/-- `getCurrentVersion` (lines 1461-1466). -/
def getCurrentVersion (db : Db) (appName : String) : Option Version :=
  match findApp db appName with
  | none => none
  | some app => app.versions.find? (·.version == app.currentVersion)

/-- Replaces the first list entry satisfying `p` — the effect of mutating,
in place, the object returned by a JS `Array.prototype.find`. -/
def updateFirst (p : α → Bool) (f : α → α) : List α → List α
  | [] => []
  | x :: xs => if p x then f x :: xs else x :: updateFirst p f xs

/-! ## Content store: fingerprints and diff -/

/-- JS property read `m[k]` on an object used as a string map. -/
def jsGet (m : List (String × String)) (k : String) : Option String :=
  (m.find? (·.1 == k)).map (·.2)

/-- JS truthiness of `m[k]`: `undefined` and the empty string are falsy. -/
def jsTruthy (o : Option String) : Bool :=
  match o with
  | none => false
  | some s => s ≠ ""

/-- `detectChangedFiles` (lines 1486-1508): one pass over the new map
classifying entries as added (`!oldHashes[file]`) or changed
(`oldHashes[file] !== hash`), and one pass over the old map collecting
removed entries (`!newHashes[file]`). The two pushes of the first loop are
rendered as two complementary filters, preserving order. -/
def detectChangedFiles (oldHashes newHashes : List (String × String)) :
    List String × List String × List String :=
  let changedFiles :=
    (newHashes.filter
      (fun p => jsTruthy (jsGet oldHashes p.1) && jsGet oldHashes p.1 != some p.2)).map (·.1)
  let addedFiles :=
    (newHashes.filter (fun p => !jsTruthy (jsGet oldHashes p.1))).map (·.1)
  let removedFiles :=
    (oldHashes.filter (fun p => !jsTruthy (jsGet newHashes p.1))).map (·.1)
  (changedFiles, addedFiles, removedFiles)

/-- `generateFileHashes` (lines 1468-1484), parametrised by the digest
function `hash` (sha256-hex in the source). A file that cannot be read maps
to `"unknown"`. `live` is the file system keyed by full joined path. -/
def generateFileHashes (hash : String → String) (live : String → Option String)
    (appPath : String) (files : List String) : List (String × String) :=
  files.map (fun file =>
    (file, match live (pathJoin appPath file) with
           | some content => hash content
           | none => "unknown"))

/-! ## Version bump -/

/-- The destructuring
`currentVersion.replace('v', '').split('.').map(Number)` (line 1511);
missing components (impossible for the `vM.N.P` identifiers every claim
ranges over) read as 0. -/
def parseSemver (currentVersion : String) : Nat × Nat × Nat :=
  let parts := (splitChar '.' (removeFirst 'v' currentVersion.data)).map jsNumber
  (parts.getD 0 0, parts.getD 1 0, parts.getD 2 0)

/-- The template literal `v${a}.${b}.${c}`. -/
def semverString (a b c : Nat) : String :=
  "v" ++ natToStr a ++ "." ++ natToStr b ++ "." ++ natToStr c

/-- `calculateSemanticVersion` (lines 1510-1521). Its only call site
(line 1760) passes `changeType = 'minor'`. -/
def calculateSemanticVersion (currentVersion changeType : String)
    (changedFiles : List String) : String :=
  let mmp := parseSemver currentVersion
  if changeType == "major" || changedFiles.contains "package.json" then
    semverString mmp.1 (mmp.2.1 + 1) 0
  else if changeType == "minor" ||
      changedFiles.any (fun f => jsEndsWith f ".jsx" || jsEndsWith f ".js") then
    semverString mmp.1 mmp.2.1 (mmp.2.2 + 1)
  else
    semverString mmp.1 mmp.2.1 (mmp.2.2 + 1)

/-! ## Build strategy selector

`determineBuildStrategy`, from the repository's design document
(src/unnamed, `APP_UPDATE.md`, lines 233-242); `'dependencies'` is that
document's name for the dependency-rebuild tier and `'full'` for the
full-rebuild tier. -/

def determineBuildStrategy (changedFiles : List String) : String :=
  let frontendFiles := changedFiles.filter (fun f => jsStartsWith f "src/")
  let backendFiles := changedFiles.filter (fun f => f == "server.js")
  let depFiles := changedFiles.filter (fun f => f == "package.json")
  if depFiles.length > 0 then "dependencies"
  else if backendFiles.length > 0 && frontendFiles.length == 0 then "backend-only"
  else if frontendFiles.length > 0 && backendFiles.length == 0 then "frontend-only"
  else "full"

/-! ## Health checker -/

/-- `healthCheckContainer` (lines 2016-2062) with the engine interaction as
explicit inputs: `psOutput` is the output of
`docker ps --filter name=… --format {{.Names}}` (`none` when `execSync`
threw, handled by the outer catch), `probe` the HTTP status of the `fetch`
probe (`none` for a network error or an `AbortSignal` timeout, both landing
in `.catch`), and `outerTimedOut` whether the outer `setTimeout` fired
before the probe settled. Every failure path resolves `false`; nothing is
thrown past this function. -/
def healthCheckContainer (containerName : String) (psOutput : Option String)
    (probe : Option Nat) (outerTimedOut : Bool) : Bool :=
  match psOutput with
  | none => false
  | some out =>
    if !jsIncludes out containerName then false
    else if outerTimedOut then false
    else
      match probe with
      | some status => 200 ≤ status && status < 300
      | none => false

/-! ## Map lemmas for JS-object reads -/

theorem mem_of_jsGet {m : List (String × String)} {k v : String}
    (h : jsGet m k = some v) : ∃ p ∈ m, p.1 = k ∧ p.2 = v := by
  unfold jsGet at h
  cases hf : m.find? (·.1 == k) with
  | none => rw [hf] at h; simp at h
  | some p =>
    rw [hf] at h
    simp only [Option.map_some'] at h
    exact ⟨p, List.mem_of_find?_eq_some hf,
      by simpa using List.find?_some hf, by simpa using h⟩

theorem jsGet_of_mem {m : List (String × String)} {p : String × String}
    (hU : m.Pairwise (fun a b => a.1 ≠ b.1)) (hp : p ∈ m) :
    jsGet m p.1 = some p.2 := by
  induction m with
  | nil => cases hp
  | cons a rest ih =>
    rcases List.pairwise_cons.mp hU with ⟨ha, hrest⟩
    rcases List.mem_cons.mp hp with h | h
    · subst h; simp [jsGet, List.find?]
    · have hne : (a.1 == p.1) = false := by
        simpa using ha p h
      simpa [jsGet, List.find?, hne] using ih hrest h

theorem jsTruthy_eq_isSome {m : List (String × String)}
    (hV : ∀ p ∈ m, p.2 ≠ "") (k : String) :
    jsTruthy (jsGet m k) = (jsGet m k).isSome := by
  cases h : jsGet m k with
  | none => rfl
  | some v =>
    obtain ⟨p, hpm, -, hpv⟩ := mem_of_jsGet h
    have : v ≠ "" := hpv ▸ hV p hpm
    simp [jsTruthy, this]

/-- C6: for every pair of fingerprint mappings (unique keys, as JS object
keys are, and non-empty hash values, as every fingerprint the program
produces is), `detectChangedFiles` returns exactly: changed = the paths
present in both mappings with different hashes, added = the paths present
only in the new mapping, removed = the paths present only in the old
mapping; and the diff of a mapping against itself is empty. -/
theorem detectChangedFiles_spec (old new : List (String × String))
    (holdV : ∀ p ∈ old, p.2 ≠ "") (hnewV : ∀ p ∈ new, p.2 ≠ "")
    (holdK : old.Pairwise (fun a b => a.1 ≠ b.1))
    (hnewK : new.Pairwise (fun a b => a.1 ≠ b.1)) :
    (∀ f, f ∈ (detectChangedFiles old new).1 ↔
        ∃ h1 h2, jsGet old f = some h1 ∧ jsGet new f = some h2 ∧ h1 ≠ h2) ∧
    (∀ f, f ∈ (detectChangedFiles old new).2.1 ↔
        jsGet old f = none ∧ (jsGet new f).isSome) ∧
    (∀ f, f ∈ (detectChangedFiles old new).2.2 ↔
        (jsGet old f).isSome ∧ jsGet new f = none) ∧
    detectChangedFiles old old = ([], [], []) := by
  refine ⟨fun f => ?_, fun f => ?_, fun f => ?_, ?_⟩
  · simp only [detectChangedFiles, List.mem_map, List.mem_filter]
    constructor
    · rintro ⟨p, ⟨hpmem, hcond⟩, hpf⟩
      subst hpf
      rw [Bool.and_eq_true, jsTruthy_eq_isSome holdV, Option.isSome_iff_exists] at hcond
      obtain ⟨⟨h1, hh1⟩, hne⟩ := hcond
      refine ⟨h1, p.2, hh1, jsGet_of_mem hnewK hpmem, ?_⟩
      rw [hh1] at hne
      simpa using hne
    · rintro ⟨h1, h2, hold, hnew, hne⟩
      obtain ⟨p, hpmem, hpk, hpv⟩ := mem_of_jsGet hnew
      refine ⟨p, ⟨hpmem, ?_⟩, hpk⟩
      rw [hpk, Bool.and_eq_true]
      refine ⟨?_, ?_⟩
      · rw [jsTruthy_eq_isSome holdV, hold]; rfl
      · rw [hold]; simp [hpv, hne]
  · simp only [detectChangedFiles, List.mem_map, List.mem_filter]
    constructor
    · rintro ⟨p, ⟨hpmem, hcond⟩, hpf⟩
      subst hpf
      rw [Bool.not_eq_true', jsTruthy_eq_isSome holdV] at hcond
      exact ⟨Option.not_isSome_iff_eq_none.mp (by simp [hcond]),
        by rw [jsGet_of_mem hnewK hpmem]; rfl⟩
    · rintro ⟨hold, hnew⟩
      obtain ⟨h2, hh2⟩ := Option.isSome_iff_exists.mp hnew
      obtain ⟨p, hpmem, hpk, hpv⟩ := mem_of_jsGet hh2
      exact ⟨p, ⟨hpmem, by rw [hpk, Bool.not_eq_true', jsTruthy_eq_isSome holdV, hold]; rfl⟩, hpk⟩
  · simp only [detectChangedFiles, List.mem_map, List.mem_filter]
    constructor
    · rintro ⟨p, ⟨hpmem, hcond⟩, hpf⟩
      subst hpf
      rw [Bool.not_eq_true', jsTruthy_eq_isSome hnewV] at hcond
      exact ⟨by rw [jsGet_of_mem holdK hpmem]; rfl,
        Option.not_isSome_iff_eq_none.mp (by simp [hcond])⟩
    · rintro ⟨hold, hnew⟩
      obtain ⟨h1, hh1⟩ := Option.isSome_iff_exists.mp hold
      obtain ⟨p, hpmem, hpk, hpv⟩ := mem_of_jsGet hh1
      exact ⟨p, ⟨hpmem, by rw [hpk, Bool.not_eq_true', jsTruthy_eq_isSome hnewV, hnew]; rfl⟩, hpk⟩
  · simp only [detectChangedFiles, Prod.mk.injEq]
    refine ⟨?_, ?_, ?_⟩ <;> rw [List.map_eq_nil_iff, List.filter_eq_nil_iff]
    · intro p hp
      rw [Bool.and_eq_true, jsGet_of_mem holdK hp]
      rintro ⟨-, hne⟩
      simp at hne
    · intro p hp
      rw [Bool.not_eq_true', jsTruthy_eq_isSome holdV, jsGet_of_mem holdK hp]
      rintro h
      simp at h
    · intro p hp
      rw [Bool.not_eq_true', jsTruthy_eq_isSome holdV, jsGet_of_mem holdK hp]
      rintro h
      simp at h

/-- C6 witness: a concrete diff exercising all three classifications. -/
theorem detectChangedFiles_spec_witness :
    "a" ∈ (detectChangedFiles [("a", "1"), ("b", "2"), ("c", "3")]
        [("a", "1x"), ("b", "2"), ("d", "4")]).1 ∧
    "d" ∈ (detectChangedFiles [("a", "1"), ("b", "2"), ("c", "3")]
        [("a", "1x"), ("b", "2"), ("d", "4")]).2.1 ∧
    "c" ∈ (detectChangedFiles [("a", "1"), ("b", "2"), ("c", "3")]
        [("a", "1x"), ("b", "2"), ("d", "4")]).2.2 := by
  have h := detectChangedFiles_spec [("a", "1"), ("b", "2"), ("c", "3")]
    [("a", "1x"), ("b", "2"), ("d", "4")]
    (by decide) (by decide) (by decide) (by decide)
  exact ⟨(h.1 "a").mpr ⟨"1", "1x", by decide, by decide, by decide⟩,
    (h.2.1 "d").mpr ⟨by decide, by decide⟩,
    (h.2.2.1 "c").mpr ⟨by decide, by decide⟩⟩

/-- C5: on every identifier that parses as `vMAJOR.MINOR.PATCH`, the
version-bump function (called with `changeType = 'minor'` as its only call
site does) bumps MINOR and resets PATCH whenever the change set contains
`package.json`, and bumps PATCH for every other non-empty change set; MAJOR
is returned unchanged in both cases. In particular
`versionBump("v1.2.3", {package.json}) = "v1.3.0"` and
`versionBump("v1.2.3", {src/App.js}) = "v1.2.4"`. -/
theorem calculateSemanticVersion_spec (cur : String) (M N P : Nat)
    (changedFiles : List String) (hparse : parseSemver cur = (M, N, P))
    (hne : changedFiles ≠ []) :
    calculateSemanticVersion cur "minor" changedFiles =
      (if "package.json" ∈ changedFiles then semverString M (N + 1) 0
       else semverString M N (P + 1)) ∧
    calculateSemanticVersion "v1.2.3" "minor" ["package.json"] = "v1.3.0" ∧
    calculateSemanticVersion "v1.2.3" "minor" ["src/App.js"] = "v1.2.4" := by
  refine ⟨?_, by decide, by decide⟩
  by_cases hc : "package.json" ∈ changedFiles
  · have hc' : changedFiles.contains "package.json" = true := by
      simpa [List.elem_iff] using hc
    simp [calculateSemanticVersion, hparse, hc', hc]
  · have hc' : changedFiles.contains "package.json" = false := by
      simpa [List.elem_iff] using hc
    simp only [calculateSemanticVersion, hparse, hc', if_neg hc]
    simp

/-- C5 witness. -/
theorem calculateSemanticVersion_spec_witness :
    calculateSemanticVersion "v2.5.9" "minor" ["package.json", "server.js"] =
      "v2.6.0" := by
  rw [(calculateSemanticVersion_spec "v2.5.9" 2 5 9 ["package.json", "server.js"]
    (by decide) (by decide)).1]
  decide

/-- C7: any change set containing the dependency manifest `package.json`
is assigned the dependency-rebuild tier (named `'dependencies'` in the
design document's selector), regardless of what else changed; in
particular `{package.json, server.js}` selects the dependency tier and not
the full-rebuild tier. -/
theorem determineBuildStrategy_dependency_dominates (changedFiles : List String)
    (h : "package.json" ∈ changedFiles) :
    determineBuildStrategy changedFiles = "dependencies" ∧
    determineBuildStrategy ["package.json", "server.js"] = "dependencies" ∧
    determineBuildStrategy ["package.json", "server.js"] ≠ "full" := by
  refine ⟨?_, by decide, by decide⟩
  have hmem : "package.json" ∈ changedFiles.filter (fun f => f == "package.json") :=
    List.mem_filter.mpr ⟨h, by decide⟩
  have hlen : 0 < (changedFiles.filter (fun f => f == "package.json")).length :=
    List.length_pos.mpr (List.ne_nil_of_mem hmem)
  simp [determineBuildStrategy, hlen]

/-- C7 witness. -/
theorem determineBuildStrategy_dependency_dominates_witness :
    determineBuildStrategy ["index.js", "package.json", "src/App.jsx"] =
      "dependencies" :=
  (determineBuildStrategy_dependency_dominates
    ["index.js", "package.json", "src/App.jsx"] (by decide)).1

/-- C8: the health check returns a boolean on every input (the embedding is
a total function into `Bool`, mirroring the source's catch-all handlers):
it returns `false` when the engine's `docker ps` listing does not contain
the container (including a container that never starts), when the engine
query itself throws, when the probe ends in a network error or abort, when
the bounded outer timer fires, and when the probe yields a non-success
status. -/
theorem healthCheckContainer_spec :
    (∀ name probe t, healthCheckContainer name none probe t = false) ∧
    (∀ name out probe t, jsIncludes out name = false →
        healthCheckContainer name (some out) probe t = false) ∧
    (∀ name out t, healthCheckContainer name (some out) none t = false) ∧
    (∀ name out probe, healthCheckContainer name (some out) probe true = false) ∧
    (∀ name out status t, ¬(200 ≤ status ∧ status < 300) →
        healthCheckContainer name (some out) (some status) t = false) := by
  refine ⟨fun name probe t => rfl, fun name out probe t h => ?_,
    fun name out t => ?_, fun name out probe => ?_,
    fun name out status t h => ?_⟩
  · simp [healthCheckContainer, h]
  · by_cases hrun : jsIncludes out name <;> by_cases ht : t <;>
      simp [healthCheckContainer, hrun, ht]
  · by_cases hrun : jsIncludes out name <;>
      simp [healthCheckContainer, hrun]
  · by_cases hrun : jsIncludes out name <;> by_cases ht : t <;>
      simp [healthCheckContainer, hrun, ht] <;> omega

/-- C8 witness: a running container answering HTTP 500 is unhealthy. -/
theorem healthCheckContainer_spec_witness :
    healthCheckContainer "demo" (some "demo") (some 500) false = false :=
  healthCheckContainer_spec.2.2.2.2 "demo" "demo" 500 false (by omega)

/-! ## Installing generated files

`parseAndCreateFiles` (lines 500-564). The regex extraction of
`<file path="...">content</file>` blocks is the spec's out-of-scope
parsing collaborator; its result is the `blocks` input. `clean` stands for
`match[2].trim()` followed by the extension-dispatched markdown-fence
cleanup (`cleanJsonContent` etc.), which transforms content only. The file
system is keyed by full joined path; `fs.mkdir` is implicit in the map
update. -/

def parseAndCreateFiles (clean : String → String → String) (appPath : String)
    (blocks : List (String × String)) (live : String → Option String) :
    (String → Option String) × List String :=
  match blocks with
  | [] => (live, [])
  | (originalPath, content) :: rest =>
    let relativePath := pathNormalize originalPath
    if jsIncludes relativePath ".." || jsStartsWith relativePath "/" ||
        jsIncludes relativePath "\\" then
      parseAndCreateFiles clean appPath rest live
    else
      let filePath := pathJoin appPath relativePath
      if !jsStartsWith filePath appPath then
        parseAndCreateFiles clean appPath rest live
      else
        let fileContent := clean originalPath content
        let live' := fun p => if p = filePath then some fileContent else live p
        let r := parseAndCreateFiles clean appPath rest live'
        (r.1, relativePath :: r.2)

/-- The conjunction of the per-block safety checks a block must pass to be
written: its normalized path is not absolute, contains no `..` and no
backslash, and the joined path stays under the app directory. -/
def blockAccepted (appPath originalPath : String) : Bool :=
  let relativePath := pathNormalize originalPath
  !(jsIncludes relativePath ".." || jsStartsWith relativePath "/" ||
      jsIncludes relativePath "\\") &&
    jsStartsWith (pathJoin appPath relativePath) appPath

/-- The write performed for one accepted block. -/
def writeBlock (clean : String → String → String) (appPath : String)
    (live : String → Option String) (b : String × String) :
    String → Option String :=
  fun p => if p = pathJoin appPath (pathNormalize b.1) then
    some (clean b.1 b.2) else live p

/-- C9: installing a batch of generated blocks writes exactly the blocks
passing the safety checks (unsafe blocks are skipped with no write), the
remaining blocks are processed independently of how many earlier blocks
were skipped, and the returned `createdFiles` list is exactly the
(normalized) relative paths actually written, in order. -/
theorem parseAndCreateFiles_spec (clean : String → String → String)
    (appPath : String) (blocks : List (String × String))
    (live : String → Option String) :
    parseAndCreateFiles clean appPath blocks live =
      ((blocks.filter (fun b => blockAccepted appPath b.1)).foldl
          (writeBlock clean appPath) live,
       (blocks.filter (fun b => blockAccepted appPath b.1)).map
          (fun b => pathNormalize b.1)) := by
  induction blocks generalizing live with
  | nil => rfl
  | cons b rest ih =>
    obtain ⟨originalPath, content⟩ := b
    rw [List.filter_cons]
    by_cases h1 : (jsIncludes (pathNormalize originalPath) ".." ||
        jsStartsWith (pathNormalize originalPath) "/" ||
        jsIncludes (pathNormalize originalPath) "\\") = true
    · have hb : blockAccepted appPath originalPath = false := by
        simp only [blockAccepted]
        rw [h1]
        rfl
      simp only [parseAndCreateFiles, h1, if_true]
      simp [hb, ih]
    · have h1' : (jsIncludes (pathNormalize originalPath) ".." ||
          jsStartsWith (pathNormalize originalPath) "/" ||
          jsIncludes (pathNormalize originalPath) "\\") = false := by
        simpa using h1
      by_cases h2 : jsStartsWith (pathJoin appPath (pathNormalize originalPath))
          appPath = true
      · have hb : blockAccepted appPath originalPath = true := by
          simp [blockAccepted, h1', h2]
        simp only [parseAndCreateFiles, h1', h2]
        simp only [Bool.false_eq_true, if_false, Bool.not_true, Bool.false_eq_true,
          if_false]
        simp [hb, ih]
        rfl
      · have h2' : jsStartsWith (pathJoin appPath (pathNormalize originalPath))
            appPath = false := by
          simpa using h2
        have hb : blockAccepted appPath originalPath = false := by
          simp [blockAccepted, h2']
        simp only [parseAndCreateFiles, h1', h2']
        simp [hb, ih]

/-! ## Backup manager

File-system state of one app: the live directory (keyed by full joined
path) and the snapshot store. The source keeps snapshots in
`path.join(appPath, '.backups', version)` (lines 1528, 1563); the model
keys them by version identifier with relative-path-keyed contents,
which is the same keying since the app is fixed. -/

structure AppFs where
  live : String → Option String
  backups : String → Option (String → Option String)

/-- The `backupPath` string `path.join(appPath, '.backups', version)`. -/
def backupPathOf (appName version : String) : String :=
  pathJoin (pathJoin (appPathOf appName) ".backups") version

/-- `createBackup` (lines 1523-1556): snapshots the CURRENT version's file
list out of the live directory into the store under the given `version`
key. A file missing from the live directory is skipped per-file (copy error
logged); a missing app throws (surfaced to the caller's catch, modelled as
`none`); with no current version the snapshot is empty but the backup path
is still returned. -/
def createBackup (db : Db) (fs : AppFs) (appName version : String) :
    AppFs × Option String :=
  match findApp db appName with
  | none => (fs, none)
  | some _ =>
    let snap : String → Option String :=
      match getCurrentVersion db appName with
      | some currentVersion =>
        fun file =>
          if currentVersion.files.contains file then
            fs.live (pathJoin (appPathOf appName) file)
          else none
      | none => fun _ => none
    ({ fs with backups := fun v => if v = version then some snap else fs.backups v },
     some (backupPathOf appName version))

/-- The per-file copy loop of `restoreFromBackup` (lines 1576-1586): each
listed file present in the snapshot is copied over the live directory; a
file absent from the snapshot is skipped (per-file catch). -/
def restoreFold (appName : String) (snap : String → Option String)
    (files : List String) (live : String → Option String) :
    String → Option String :=
  match files with
  | [] => live
  | file :: rest =>
    let live' :=
      match snap file with
      | some content =>
        fun p => if p = pathJoin (appPathOf appName) file then some content else live p
      | none => live
    restoreFold appName snap rest live'

/-- `restoreFromBackup` (lines 1558-1594): fails (returns `false`) when the
snapshot directory does not exist or the ledger has no record of the
version; otherwise copies every file listed for that ledger record from
the snapshot into the live directory. A missing app throws to the caller
(modelled as the same `false` outcome, which every call site treats
identically). -/
def restoreFromBackup (db : Db) (fs : AppFs) (appName version : String) :
    AppFs × Bool :=
  match findApp db appName with
  | none => (fs, false)
  | some app =>
    match fs.backups version with
    | none => (fs, false)
    | some snap =>
      match app.versions.find? (·.version == version) with
      | none => (fs, false)
      | some backupVersion =>
        ({ fs with live := restoreFold appName snap backupVersion.files fs.live },
         true)

/-! ## Improvement orchestrator

`improveApp` (lines 1685-1839). External collaborators enter as inputs:
`blocks` is the parsed output of the content-generation call, `hash` and
`clean` as above, `buildOk` the outcome of `buildVersionedContainer`
(step 6) and `deployOk` the outcome of `deployWithBlueGreen` (step 7) —
the deployer's container-engine effects are modelled separately for the
blue-green claims. On a build or deploy failure the source restores, then
throws into its own catch which restores again; both restores are
modelled. -/

def improveApp (hash : String → String) (clean : String → String → String)
    (db : Db) (fs : AppFs) (appName improvementPrompt : String)
    (blocks : List (String × String)) (buildOk deployOk : Bool) :
    Db × AppFs :=
  match findApp db appName with
  | none => (db, fs)
  | some app =>
    match getCurrentVersion db appName with
    | none => (db, fs)
    | some currentVersion =>
      let ap := appPathOf appName
      let bk := createBackup db fs appName currentVersion.version
      match bk.2 with
      | none => (db, (restoreFromBackup db bk.1 appName currentVersion.version).1)
      | some backupPath =>
        let fs1 := bk.1
        let parsed := parseAndCreateFiles clean ap blocks fs1.live
        let fs2 : AppFs := { fs1 with live := parsed.1 }
        let createdFiles := parsed.2
        let allFiles := (currentVersion.files ++ createdFiles).eraseDups
        let newFileHashes := generateFileHashes hash fs2.live ap allFiles
        let diff := detectChangedFiles currentVersion.fileHashes newFileHashes
        if diff.1.isEmpty && diff.2.1.isEmpty && diff.2.2.isEmpty then (db, fs2)
        else
          let newVersion :=
            calculateSemanticVersion currentVersion.version "minor" (diff.1 ++ diff.2.1)
          let containerName := appName ++ "-" ++ replaceAll '.' '-' newVersion
          if !buildOk then
            let fs3 := (restoreFromBackup db fs2 appName currentVersion.version).1
            (db, (restoreFromBackup db fs3 appName currentVersion.version).1)
          else if !deployOk then
            let fs3 := (restoreFromBackup db fs2 appName currentVersion.version).1
            (db, (restoreFromBackup db fs3 appName currentVersion.version).1)
          else
            let newVersionData : Version :=
              { version := newVersion
                prompt := currentVersion.prompt
                improvements := currentVersion.improvements ++ [improvementPrompt]
                containerName := containerName
                files := allFiles
                fileHashes := newFileHashes
                isActive := true
                dockerStatus := "running"
                dockerError := none
                parentVersion := some currentVersion.version
                changedFiles := diff.1
                addedFiles := diff.2.1
                removedFiles := diff.2.2
                backupPath := some backupPath }
            let versions' :=
              updateFirst (·.version == app.currentVersion)
                (fun v => { v with isActive := false }) app.versions ++ [newVersionData]
            let app' := { app with versions := versions', currentVersion := newVersion }
            ({ db with apps := updateFirst (·.name == appName) (fun _ => app') db.apps },
             fs2)

/-! ## Initial app creation

The versioned-schema commit of `createApp` (lines 2363-2407): the
generated files are installed, hashed over `createdFiles`, and a single
`v1.0.0` entry is pushed whose `isActive` equals the Docker build outcome.
The probed free port is an input; `nextPort` advances past it. -/

def createApp (hash : String → String) (clean : String → String → String)
    (db : Db) (fs : AppFs) (appName prompt : String) (port : Nat)
    (blocks : List (String × String)) (dockerSuccess : Bool) : Db × AppFs :=
  let ap := appPathOf appName
  let parsed := parseAndCreateFiles clean ap blocks fs.live
  let fs1 : AppFs := { fs with live := parsed.1 }
  let createdFiles := parsed.2
  let fileHashes := generateFileHashes hash fs1.live ap createdFiles
  let appInfo : App :=
    { name := appName
      currentVersion := "v1.0.0"
      port := if dockerSuccess then some port else none
      versions := [{ version := "v1.0.0"
                     prompt := prompt
                     improvements := []
                     containerName := appName
                     files := createdFiles
                     fileHashes := fileHashes
                     isActive := dockerSuccess
                     dockerStatus := if dockerSuccess then "running" else "failed"
                     dockerError := none
                     parentVersion := none
                     changedFiles := []
                     addedFiles := createdFiles
                     removedFiles := []
                     backupPath := none }] }
  ({ apps := db.apps ++ [appInfo], nextPort := port + 1 }, fs1)

/-! ## Rollback -/

/-- Abstract record of the externally visible operations a rollback
performs, in order. -/
inductive RbAction where
  | backup (version : String)
  | restore (version : String)
  | build (containerName : String)
  | deploy (containerName : String)
  deriving Repr, DecidableEq

/-- `rollbackToVersion` (lines 2140-2225). Guards: unknown app, unknown
target version, and target-equals-current all return without touching
anything. Otherwise: backup current state, restore the target version's
snapshot, rebuild (`buildOk`) and redeploy (`deployOk`) the target
container, then flip the ledger; any failure after the backup restores the
current version's snapshot (the catch block) and leaves the ledger
unchanged. An undefined current version would throw on first use, caught
with a second throw inside the catch — ledger and file system unchanged. -/
def rollbackToVersion (db : Db) (fs : AppFs) (appName targetVersion : String)
    (buildOk deployOk : Bool) : Db × AppFs × List RbAction :=
  match findApp db appName with
  | none => (db, fs, [])
  | some app =>
    match app.versions.find? (·.version == targetVersion) with
    | none => (db, fs, [])
    | some targetVersionData =>
      if targetVersionData.version == app.currentVersion then (db, fs, [])
      else
        match getCurrentVersion db appName with
        | none => (db, fs, [])
        | some currentVersion =>
          let fs1 := (createBackup db fs appName currentVersion.version).1
          let restored := restoreFromBackup db fs1 appName targetVersion
          let tr2 := [RbAction.backup currentVersion.version,
                      RbAction.restore targetVersion]
          if !restored.2 then
            (db, (restoreFromBackup db restored.1 appName currentVersion.version).1,
             tr2 ++ [RbAction.restore currentVersion.version])
          else
            let containerName := appName ++ "-" ++ replaceAll '.' '-' targetVersion
            if !buildOk then
              (db, (restoreFromBackup db restored.1 appName currentVersion.version).1,
               tr2 ++ [RbAction.build containerName,
                       RbAction.restore currentVersion.version])
            else if !deployOk then
              (db, (restoreFromBackup db restored.1 appName currentVersion.version).1,
               tr2 ++ [RbAction.build containerName, RbAction.deploy containerName,
                       RbAction.restore currentVersion.version])
            else
              let versions' :=
                updateFirst (·.version == app.currentVersion)
                  (fun v => { v with isActive := false }) app.versions
              let versions'' :=
                updateFirst (·.version == targetVersion)
                  (fun v => { v with
                              isActive := true
                              dockerStatus := "running"
                              dockerError := none
                              containerName := containerName })
                  versions'
              let app' := { app with
                            versions := versions''
                            currentVersion := targetVersion }
              ({ db with
                 apps := updateFirst (·.name == appName) (fun _ => app') db.apps },
               restored.1,
               tr2 ++ [RbAction.build containerName, RbAction.deploy containerName])

/-- C10: requesting a rollback to the version the app's `currentVersion`
pointer already names returns immediately as a no-op: the ledger and the
file system are unchanged (no backup, no restore) and the action trace is
empty (no container built, stopped or started). -/
theorem rollbackToVersion_noop (db : Db) (fs : AppFs)
    (appName targetVersion : String) (buildOk deployOk : Bool) (app : App)
    (happ : findApp db appName = some app)
    (htgt : targetVersion = app.currentVersion) :
    rollbackToVersion db fs appName targetVersion buildOk deployOk =
      (db, fs, []) := by
  cases hf : app.versions.find? (·.version == targetVersion) with
  | none => simp [rollbackToVersion, happ, hf]
  | some tv =>
    have heq : (tv.version == app.currentVersion) = true := by
      have h := List.find?_some hf
      simp only [beq_iff_eq] at h ⊢
      rw [h, htgt]
    simp [rollbackToVersion, happ, hf, heq]

/-- A ledger state for the C10 witness: one app at its only version. -/
def noopVersion : Version :=
  { version := "v1.0.0"
    prompt := "todo list"
    improvements := []
    containerName := "demo"
    files := ["app.js"]
    fileHashes := [("app.js", "h1")]
    isActive := true
    dockerStatus := "running"
    dockerError := none
    parentVersion := none
    changedFiles := []
    addedFiles := ["app.js"]
    removedFiles := []
    backupPath := none }

def noopApp : App :=
  { name := "demo"
    currentVersion := "v1.0.0"
    port := some 3100
    versions := [noopVersion] }

def noopDb : Db := { apps := [noopApp], nextPort := 3101 }

def emptyFs : AppFs := { live := fun _ => none, backups := fun _ => none }

/-- C10 witness. -/
theorem rollbackToVersion_noop_witness :
    rollbackToVersion noopDb emptyFs "demo" "v1.0.0" true true =
      (noopDb, emptyFs, []) :=
  rollbackToVersion_noop noopDb emptyFs "demo" "v1.0.0" true true noopApp
    (by decide) rfl

/-! ## Restoration lemmas -/

theorem restoreFold_preserve (appName : String) (snap : String → Option String)
    (files : List String) (live : String → Option String) (K c : String)
    (hl : live K = some c)
    (hall : ∀ f ∈ files, pathJoin (appPathOf appName) f = K → snap f = some c) :
    restoreFold appName snap files live K = some c := by
  induction files generalizing live with
  | nil => exact hl
  | cons f rest ih =>
    unfold restoreFold
    cases hs : snap f with
    | none => exact ih _ hl (fun g hg => hall g (List.mem_cons_of_mem _ hg))
    | some v =>
      apply ih
      · show (if K = pathJoin (appPathOf appName) f then some v else live K) = some c
        by_cases hk : pathJoin (appPathOf appName) f = K
        · rw [if_pos hk.symm]
          have hv := hall f (List.mem_cons_self _ _) hk
          rw [hs] at hv
          exact hv
        · rw [if_neg (fun h => hk h.symm)]
          exact hl
      · exact fun g hg => hall g (List.mem_cons_of_mem _ hg)

theorem restoreFold_hits (appName : String) (snap : String → Option String)
    (files : List String) (live : String → Option String) (K c : String)
    (hex : ∃ f ∈ files, pathJoin (appPathOf appName) f = K)
    (hall : ∀ f ∈ files, pathJoin (appPathOf appName) f = K → snap f = some c) :
    restoreFold appName snap files live K = some c := by
  induction files generalizing live with
  | nil => obtain ⟨f, hf, -⟩ := hex; cases hf
  | cons f rest ih =>
    unfold restoreFold
    by_cases hex' : ∃ g ∈ rest, pathJoin (appPathOf appName) g = K
    · cases hs : snap f with
      | none => exact ih _ hex' (fun g hg => hall g (List.mem_cons_of_mem _ hg))
      | some v => exact ih _ hex' (fun g hg => hall g (List.mem_cons_of_mem _ hg))
    · obtain ⟨g, hg, hgK⟩ := hex
      rcases List.mem_cons.mp hg with rfl | hgr
      · have hsnap := hall g (List.mem_cons_self _ _) hgK
        rw [hsnap]
        exact restoreFold_preserve _ _ _ _ _ _ (by simp [hgK])
          (fun g' hg' => hall g' (List.mem_cons_of_mem _ hg'))
      · exact absurd ⟨g, hgr, hgK⟩ hex'

theorem restoreFromBackup_current (db : Db) (appName : String) (app : App)
    (happ : findApp db appName = some app) (cv : Version)
    (hfind : app.versions.find? (·.version == app.currentVersion) = some cv)
    (hcveq : cv.version = app.currentVersion) (g : AppFs)
    (snap : String → Option String) (hsnap : g.backups cv.version = some snap) :
    restoreFromBackup db g appName cv.version =
      ({ g with live := restoreFold appName snap cv.files g.live }, true) := by
  simp only [restoreFromBackup, happ, hsnap]
  rw [show (fun (v : Version) => v.version == cv.version) =
      (fun (v : Version) => v.version == app.currentVersion) from
    by funext v; rw [hcveq]]
  rw [hfind]

/-- The change detection `improveApp` performs before deciding whether a
cycle proceeds: hashes of the live tree after installing the generated
blocks, diffed against the current version's recorded hashes. -/
def improveDiffOf (hash : String → String) (clean : String → String → String)
    (fs : AppFs) (appName : String) (cv : Version)
    (blocks : List (String × String)) :
    List String × List String × List String :=
  detectChangedFiles cv.fileHashes
    (generateFileHashes hash
      (parseAndCreateFiles clean (appPathOf appName) blocks fs.live).1
      (appPathOf appName)
      ((cv.files ++
        (parseAndCreateFiles clean (appPathOf appName) blocks fs.live).2).eraseDups))

/-- C2: in an improvement cycle that reaches the build stage (changes were
detected) and then fails at build or at deploy, the ledger is returned
untouched — no version appended, `currentVersion` pointer unchanged, the
active version's `isActive` flag never written — and every file of the
previous version is restored to the content it had when the cycle's
backup was taken. -/
theorem improveApp_failure_frame
    (hash : String → String) (clean : String → String → String)
    (db : Db) (fs : AppFs) (appName improvementPrompt : String)
    (blocks : List (String × String)) (buildOk deployOk : Bool)
    (app : App) (happ : findApp db appName = some app)
    (cv : Version) (hcv : getCurrentVersion db appName = some cv)
    (hchanges : ((improveDiffOf hash clean fs appName cv blocks).1.isEmpty &&
        (improveDiffOf hash clean fs appName cv blocks).2.1.isEmpty &&
        (improveDiffOf hash clean fs appName cv blocks).2.2.isEmpty) = false)
    (hfail : buildOk = false ∨ deployOk = false) :
    (improveApp hash clean db fs appName improvementPrompt blocks
      buildOk deployOk).1 = db ∧
    (∀ f c, f ∈ cv.files →
      fs.live (pathJoin (appPathOf appName) f) = some c →
      (improveApp hash clean db fs appName improvementPrompt blocks
        buildOk deployOk).2.live (pathJoin (appPathOf appName) f) = some c) := by
  have hfind : app.versions.find? (·.version == app.currentVersion) = some cv := by
    have h := hcv
    rw [getCurrentVersion, happ] at h
    exact h
  have hcveq : cv.version = app.currentVersion := by
    simpa using List.find?_some hfind
  simp only [improveDiffOf] at hchanges
  simp only [improveApp, happ, hcv, createBackup, hchanges, Bool.false_eq_true,
    if_false]
  have core : ∀ f c, f ∈ cv.files →
      fs.live (pathJoin (appPathOf appName) f) = some c →
      (restoreFromBackup db
        (restoreFromBackup db
          ({ live := (parseAndCreateFiles clean (appPathOf appName) blocks fs.live).1
             backups := fun v =>
               if v = cv.version then
                 some (fun file =>
                   if cv.files.contains file = true then
                     fs.live (pathJoin (appPathOf appName) file)
                   else none)
               else fs.backups v } : AppFs)
          appName cv.version).1
        appName cv.version).1.live (pathJoin (appPathOf appName) f) = some c := by
    intro f c hf hlive
    have h1 := restoreFromBackup_current db appName app happ cv hfind hcveq
      ({ live := (parseAndCreateFiles clean (appPathOf appName) blocks fs.live).1
         backups := fun v =>
           if v = cv.version then
             some (fun file =>
               if cv.files.contains file = true then
                 fs.live (pathJoin (appPathOf appName) file)
               else none)
           else fs.backups v } : AppFs)
      (fun file =>
        if cv.files.contains file = true then
          fs.live (pathJoin (appPathOf appName) file)
        else none)
      (if_pos rfl)
    rw [h1]
    have h2 := restoreFromBackup_current db appName app happ cv hfind hcveq
      ({ live := restoreFold appName
           (fun file =>
             if cv.files.contains file = true then
               fs.live (pathJoin (appPathOf appName) file)
             else none)
           cv.files
           (parseAndCreateFiles clean (appPathOf appName) blocks fs.live).1
         backups := fun v =>
           if v = cv.version then
             some (fun file =>
               if cv.files.contains file = true then
                 fs.live (pathJoin (appPathOf appName) file)
               else none)
           else fs.backups v } : AppFs)
      (fun file =>
        if cv.files.contains file = true then
          fs.live (pathJoin (appPathOf appName) file)
        else none)
      (if_pos rfl)
    rw [h2]
    apply restoreFold_hits
    · exact ⟨f, hf, rfl⟩
    · intro g hg hgK
      have hcont : cv.files.contains g = true := by
        simpa [List.elem_iff] using hg
      show (if cv.files.contains g = true then
          fs.live (pathJoin (appPathOf appName) g) else none) = some c
      rw [if_pos hcont, hgK]
      exact hlive
  rcases hfail with hb | hd
  · subst hb
    simp only [Bool.not_false, if_true]
    exact ⟨trivial, core⟩
  · subst hd
    by_cases hbuild : buildOk
    · subst hbuild
      simp only [Bool.not_true, Bool.not_false, Bool.false_eq_true, if_false,
        if_true]
      exact ⟨trivial, core⟩
    · have hb : buildOk = false := by simpa using hbuild
      subst hb
      simp only [Bool.not_false, if_true]
      exact ⟨trivial, core⟩

/-- Ledger and file system for the C2 witness: one app at `v1.0.0` whose
single file is live with the recorded content. -/
def failCv : Version :=
  { version := "v1.0.0"
    prompt := "todo list"
    improvements := []
    containerName := "demo2"
    files := ["app.js"]
    fileHashes := [("app.js", "v1")]
    isActive := true
    dockerStatus := "running"
    dockerError := none
    parentVersion := none
    changedFiles := []
    addedFiles := ["app.js"]
    removedFiles := []
    backupPath := none }

def failDb : Db :=
  { apps := [{ name := "demo2"
               currentVersion := "v1.0.0"
               port := some 3100
               versions := [failCv] }]
    nextPort := 3101 }

def failFs : AppFs :=
  { live := fun p =>
      if p = pathJoin (appPathOf "demo2") "app.js" then some "v1" else none
    backups := fun _ => none }

/-- C2 witness: a build failure on a cycle that rewrote `app.js` leaves the
ledger exactly as it was and the file's live content restored. -/
theorem improveApp_failure_frame_witness :
    (improveApp (fun s => s) (fun _ c => c) failDb failFs "demo2" "add auth"
      [("app.js", "v2")] false true).1 = failDb ∧
    (improveApp (fun s => s) (fun _ c => c) failDb failFs "demo2" "add auth"
      [("app.js", "v2")] false true).2.live
      (pathJoin (appPathOf "demo2") "app.js") = some "v1" := by
  have h := improveApp_failure_frame (fun s => s) (fun _ c => c) failDb failFs
    "demo2" "add auth" [("app.js", "v2")] false true
    { name := "demo2", currentVersion := "v1.0.0", port := some 3100,
      versions := [failCv] }
    (by decide) failCv (by decide) (by decide) (Or.inl rfl)
  exact ⟨h.1, h.2 "app.js" "v1" (by decide) (by decide)⟩

/-! ## Fingerprint round trip -/

theorem jsGet_generateFileHashes (hash : String → String)
    (live : String → Option String) (appPath : String) (files : List String)
    (f : String) (hf : f ∈ files) :
    jsGet (generateFileHashes hash live appPath files) f =
      some (match live (pathJoin appPath f) with
            | some content => hash content
            | none => "unknown") := by
  induction files with
  | nil => cases hf
  | cons g rest ih =>
    by_cases hgf : g = f
    · subst hgf
      simp [generateFileHashes, jsGet, List.find?]
    · have hgf' : (g == f) = false := by simpa using hgf
      have hfr : f ∈ rest := by
        rcases List.mem_cons.mp hf with h | h
        · exact absurd h.symm hgf
        · exact h
      simpa [generateFileHashes, jsGet, List.find?, hgf'] using ih hfr

/-- C4: for a committed version whose backup snapshot exists and holds the
version's file contents (the data model's definition of a Backup
Snapshot), with distinct listed paths resolving to distinct joined paths,
`restoreFromBackup` succeeds and an immediate `generateFileHashes` over
the version's file list reproduces exactly the per-file fingerprints
recorded in the ledger. -/
theorem restore_fingerprint_roundtrip (hash : String → String)
    (db : Db) (fs : AppFs) (appName version : String)
    (app : App) (happ : findApp db appName = some app)
    (snap : String → Option String) (hsnap : fs.backups version = some snap)
    (v : Version) (hv : app.versions.find? (·.version == version) = some v)
    (hfaithful : ∀ f ∈ v.files, ∃ c, snap f = some c ∧
      jsGet v.fileHashes f = some (hash c))
    (hinj : ∀ g ∈ v.files, ∀ f ∈ v.files,
      pathJoin (appPathOf appName) g = pathJoin (appPathOf appName) f → g = f) :
    (restoreFromBackup db fs appName version).2 = true ∧
    ∀ f ∈ v.files,
      jsGet (generateFileHashes hash
        (restoreFromBackup db fs appName version).1.live
        (appPathOf appName) v.files) f = jsGet v.fileHashes f := by
  have hred : restoreFromBackup db fs appName version =
      ({ fs with live := restoreFold appName snap v.files fs.live }, true) := by
    simp only [restoreFromBackup, happ, hsnap, hv]
  rw [hred]
  refine ⟨rfl, ?_⟩
  intro f hf
  obtain ⟨c, hc, hrec⟩ := hfaithful f hf
  have hlive : restoreFold appName snap v.files fs.live
      (pathJoin (appPathOf appName) f) = some c := by
    apply restoreFold_hits
    · exact ⟨f, hf, rfl⟩
    · intro g hg hgK
      exact (hinj g hg f hf hgK) ▸ hc
  rw [hrec, jsGet_generateFileHashes hash _ _ _ f hf]
  simp [hlive]

/-- Ledger and file system for the C4 witness. -/
def rtV : Version :=
  { version := "v1.0.0"
    prompt := "todo list"
    improvements := []
    containerName := "demo4"
    files := ["app.js"]
    fileHashes := [("app.js", "v1")]
    isActive := true
    dockerStatus := "running"
    dockerError := none
    parentVersion := none
    changedFiles := []
    addedFiles := ["app.js"]
    removedFiles := []
    backupPath := none }

def rtApp : App :=
  { name := "demo4"
    currentVersion := "v1.0.0"
    port := some 3102
    versions := [rtV] }

def rtDb : Db := { apps := [rtApp], nextPort := 3103 }

def rtFs : AppFs :=
  { live := fun _ => none
    backups := fun ver =>
      if ver = "v1.0.0" then
        some (fun f => if f = "app.js" then some "v1" else none)
      else none }

/-- C4 witness: restoring `v1.0.0` from its snapshot and fingerprinting
reproduces the recorded hash (digest modelled by the identity on the
witness contents). -/
theorem restore_fingerprint_roundtrip_witness :
    (restoreFromBackup rtDb rtFs "demo4" "v1.0.0").2 = true ∧
    jsGet (generateFileHashes (fun s => s)
      (restoreFromBackup rtDb rtFs "demo4" "v1.0.0").1.live
      (appPathOf "demo4") rtV.files) "app.js" = some "v1" := by
  have h := restore_fingerprint_roundtrip (fun s => s) rtDb rtFs "demo4" "v1.0.0"
    rtApp (by decide)
    (fun f => if f = "app.js" then some "v1" else none) rfl
    rtV (by decide)
    (by
      intro f hf
      have : f = "app.js" := by simpa [rtV] using hf
      subst this
      exact ⟨"v1", rfl, rfl⟩)
    (by decide)
  refine ⟨h.1, ?_⟩
  have h2 := h.2 "app.js" (by decide)
  rw [h2]
  decide

/-! ## Blue-green deployer and the container engine

`deployWithBlueGreen` (lines 1941-2014). The engine is the list of known
containers: `running` state and configured host-port mapping (fixed at
`docker run`). The two health-check outcomes are oracle inputs — the
claims quantify over attempts with a given outcome. -/

structure ContainerInfo where
  running : Bool
  hostPort : Nat
  deriving Repr, DecidableEq

abbrev Engine := List (String × ContainerInfo)

/-- `docker inspect`-style lookup by container name. -/
def lookupC (e : Engine) (n : String) : Option ContainerInfo :=
  (e.find? (·.1 == n)).map (·.2)

/-- `lsof -i :port` reports a listener exactly when some running container
publishes the port. -/
def portInUse (e : Engine) (port : Nat) : Bool :=
  e.any (fun p => p.2.running && p.2.hostPort == port)

/-- `docker ps --filter publish=port … | xargs -r docker stop`: stops every
running container publishing the port. -/
def stopPublishers (e : Engine) (port : Nat) : Engine :=
  e.map (fun p =>
    if p.2.running && p.2.hostPort == port then
      (p.1, { p.2 with running := false })
    else p)

/-- `docker ps -a --filter publish=port … | xargs -r docker rm`: removes
every (by now stopped) container configured on the port. -/
def rmPublishers (e : Engine) (port : Nat) : Engine :=
  e.filter (fun p => !(p.2.hostPort == port))

/-- `docker stop name` (no-op and swallowed error when absent). -/
def dockerStopName (e : Engine) (n : String) : Engine :=
  e.map (fun p => if p.1 == n then (p.1, { p.2 with running := false }) else p)

/-- `docker rm name` (no-op and swallowed error when absent; always
preceded by a stop in this source). -/
def dockerRmName (e : Engine) (n : String) : Engine :=
  e.filter (fun p => !(p.1 == n))

/-- `docker run -d --name n -p hostPort:3000 img`: fails when the name is
taken (the thrown error lands in the surrounding catch). -/
def dockerRunC (e : Engine) (n : String) (hostPort : Nat) : Option Engine :=
  if (lookupC e n).isSome then none
  else some (e ++ [(n, { running := true, hostPort := hostPort })])

/-- The catch block (lines 2002-2007): best-effort stop and remove of the
just-started container. -/
def cleanupNew (e : Engine) (n : String) : Engine :=
  dockerRmName (dockerStopName e n) n

def deployWithBlueGreen (db : Db) (appName newContainerName : String)
    (port : Nat) (healthTemp healthProd : Bool) (e : Engine) :
    Engine × Bool :=
  let e1 := if portInUse e port then rmPublishers (stopPublishers e port) port
    else e
  let tempPort := port + 1000
  match dockerRunC e1 newContainerName tempPort with
  | none => (cleanupNew e1 newContainerName, false)
  | some e2 =>
    if !healthTemp then (cleanupNew e2 newContainerName, false)
    else
      let e3 :=
        match getCurrentVersion db appName with
        | some currentVersion =>
          if currentVersion.containerName ≠ "" then
            dockerRmName (dockerStopName e2 currentVersion.containerName)
              currentVersion.containerName
          else e2
        | none => e2
      let e4 := dockerRmName (dockerStopName e3 newContainerName) newContainerName
      match dockerRunC e4 newContainerName port with
      | none => (cleanupNew e4 newContainerName, false)
      | some e5 =>
        if !healthProd then (cleanupNew e5 newContainerName, false)
        else (e5, true)

theorem lookupC_cons (p : String × ContainerInfo) (l : Engine) (n : String) :
    lookupC (p :: l) n = if p.1 == n then some p.2 else lookupC l n := by
  by_cases hp : p.1 = n
  · simp [lookupC, List.find?, hp]
  · have hp' : (p.1 == n) = false := by simpa using hp
    simp [lookupC, List.find?, hp']

theorem cleanupNew_cons (p : String × ContainerInfo) (rest : Engine)
    (m : String) :
    cleanupNew (p :: rest) m =
      if p.1 == m then cleanupNew rest m else p :: cleanupNew rest m := by
  by_cases hp : p.1 = m
  · simp [cleanupNew, dockerStopName, dockerRmName, hp]
  · have hp' : (p.1 == m) = false := by simpa using hp
    simp [cleanupNew, dockerStopName, dockerRmName, hp, hp']

theorem lookupC_cleanupNew_ne (e : Engine) (m n : String) (h : n ≠ m) :
    lookupC (cleanupNew e m) n = lookupC e n := by
  induction e with
  | nil => rfl
  | cons p rest ih =>
    rw [cleanupNew_cons, lookupC_cons]
    by_cases hp : p.1 = m
    · have hmn : (m == n) = false := by
        simp
        exact fun x => h x.symm
      simp [hp, hmn, ih]
    · have hp' : (p.1 == m) = false := by simpa using hp
      rw [if_neg (by simp [hp']), lookupC_cons]
      by_cases hpn : p.1 = n
      · simp [hpn]
      · have hpn' : (p.1 == n) = false := by simpa using hpn
        simp [hpn', ih]

theorem lookupC_cleanupNew_self (e : Engine) (m : String) :
    lookupC (cleanupNew e m) m = none := by
  induction e with
  | nil => rfl
  | cons p rest ih =>
    rw [cleanupNew_cons]
    by_cases hp : p.1 = m
    · simp [hp, ih]
    · have hp' : (p.1 == m) = false := by simpa using hp
      rw [if_neg (by simp [hp']), lookupC_cons]
      simp [hp', ih]

theorem lookupC_append_single_ne (e : Engine) (m : String) (c : ContainerInfo)
    (n : String) (h : n ≠ m) :
    lookupC (e ++ [(m, c)]) n = lookupC e n := by
  induction e with
  | nil =>
    have hmn : (m == n) = false := by
      simp
      exact fun x => h x.symm
    simp [lookupC, List.find?, hmn]
  | cons p rest ih =>
    rw [List.cons_append, lookupC_cons, lookupC_cons]
    by_cases hp : p.1 = n
    · simp [hp]
    · have hp' : (p.1 == n) = false := by simpa using hp
      simp [hp', ih]

/-- C1 (amended): if the production port is free when the attempt starts
(no running container publishes it, so the pre-flight port-clearing step
at lines 1944-1955 does nothing), then an attempt whose temp-port health
check fails returns failure, touches no container other than the
just-started one — in particular the previously active version's container
keeps its exact prior state — and the just-started container is stopped
and removed. -/
theorem deployWithBlueGreen_tempFail_frame (db : Db)
    (appName newContainerName : String) (port : Nat) (healthProd : Bool)
    (e : Engine) (hfree : portInUse e port = false) :
    (deployWithBlueGreen db appName newContainerName port false healthProd
      e).2 = false ∧
    (∀ n, n ≠ newContainerName →
      lookupC (deployWithBlueGreen db appName newContainerName port false
        healthProd e).1 n = lookupC e n) ∧
    lookupC (deployWithBlueGreen db appName newContainerName port false
      healthProd e).1 newContainerName = none := by
  by_cases hex : (lookupC e newContainerName).isSome
  · simp only [deployWithBlueGreen, dockerRunC, hfree, Bool.false_eq_true,
      if_false, hex, if_true]
    exact ⟨trivial, fun n hn => lookupC_cleanupNew_ne e _ n hn,
      lookupC_cleanupNew_self e _⟩
  · have hex' : (lookupC e newContainerName).isSome = false := by simpa using hex
    simp only [deployWithBlueGreen, dockerRunC, hfree, Bool.false_eq_true,
      if_false, hex', Bool.not_false, if_true]
    refine ⟨trivial, fun n hn => ?_, ?_⟩
    · rw [lookupC_cleanupNew_ne _ _ n hn, lookupC_append_single_ne e _ _ n hn]
    · exact lookupC_cleanupNew_self _ _

/-- Ledger and engine for the C1 counterexample: the previously active
version's container is running and publishing the production port — the
normal situation when an improvement cycle deploys. -/
def bgDb : Db :=
  { apps := [{ name := "demo5"
               currentVersion := "v1.0.0"
               port := some 3100
               versions := [{ version := "v1.0.0"
                              prompt := "todo list"
                              improvements := []
                              containerName := "demo5-v1-0-0"
                              files := ["app.js"]
                              fileHashes := [("app.js", "h1")]
                              isActive := true
                              dockerStatus := "running"
                              dockerError := none
                              parentVersion := none
                              changedFiles := []
                              addedFiles := ["app.js"]
                              removedFiles := []
                              backupPath := none }] }]
    nextPort := 3101 }

def bgEngine : Engine := [("demo5-v1-0-0", { running := true, hostPort := 3100 })]

/-- C1 counterexample: with the active container serving the production
port, an attempt whose temp-port health check fails still stops and
removes it — the pre-flight port-clearing step (lines 1944-1955) fires
before the health check — so the old container's state is NOT the same
before and after the failed attempt. -/
theorem deployWithBlueGreen_tempFail_counterexample :
    lookupC bgEngine "demo5-v1-0-0" =
      some { running := true, hostPort := 3100 } ∧
    (deployWithBlueGreen bgDb "demo5" "demo5-v1-0-1" 3100 false true
      bgEngine).2 = false ∧
    lookupC (deployWithBlueGreen bgDb "demo5" "demo5-v1-0-1" 3100 false true
      bgEngine).1 "demo5-v1-0-0" = none := by
  decide

/-- C1 witness for the amended statement: port free at entry (the old
container exists but is stopped), failed temp health check leaves it
exactly as it was. -/
theorem deployWithBlueGreen_tempFail_frame_witness :
    (deployWithBlueGreen bgDb "demo5" "demo5-v1-0-1" 3100 false true
      [("demo5-v1-0-0", { running := false, hostPort := 3100 })]).2 = false ∧
    lookupC (deployWithBlueGreen bgDb "demo5" "demo5-v1-0-1" 3100 false true
      [("demo5-v1-0-0", { running := false, hostPort := 3100 })]).1
      "demo5-v1-0-0" = some { running := false, hostPort := 3100 } := by
  have h := deployWithBlueGreen_tempFail_frame bgDb "demo5" "demo5-v1-0-1" 3100
    true [("demo5-v1-0-0", { running := false, hostPort := 3100 })] (by decide)
  exact ⟨h.1, by rw [h.2.1 "demo5-v1-0-0" (by decide)]; decide⟩

/-! ## The single-active-version invariant under operation sequences

A reachable sequence of ledger-mutating operations, all successful:
create the app, improve it (committing `v1.0.1`), roll back to `v1.0.0`,
improve again — `calculateSemanticVersion` restarts from the pointer and
commits a second entry named `v1.0.1` — and roll back to `v1.0.0` once
more. The final rollback's `getCurrentVersion` finds the FIRST entry named
`v1.0.1` (the stale one, already inactive) and clears its flag instead of
the later active entry's, leaving two versions active. -/

def dupScenario : Db :=
  let s0 : AppFs := { live := fun _ => none, backups := fun _ => none }
  let r1 := createApp (fun s => s) (fun _ c => c)
    { apps := [], nextPort := 3100 } s0 "demo3" "todo list" 3100
    [("app.js", "v1")] true
  let r2 := improveApp (fun s => s) (fun _ c => c) r1.1 r1.2 "demo3"
    "add auth" [("app.js", "v2")] true true
  let r3 := rollbackToVersion r2.1 r2.2 "demo3" "v1.0.0" true true
  let r4 := improveApp (fun s => s) (fun _ c => c) r3.1 r3.2.1 "demo3"
    "add search" [("app.js", "v3")] true true
  let r5 := rollbackToVersion r4.1 r4.2 "demo3" "v1.0.0" true true
  r5.1

/-- C3: after the reachable, all-successful sequence
create → improve → rollback(v1.0.0) → improve → rollback(v1.0.0) the
ledger holds entries v1.0.0, v1.0.1, v1.0.1 of which BOTH `v1.0.0` and the
second `v1.0.1` have `isActive = true` — two active versions, violating
the at-most-one-active invariant. -/
theorem improve_after_rollback_two_active :
    (match findApp dupScenario "demo3" with
     | some app => app.versions.map (fun v => (v.version, v.isActive))
     | none => []) =
      [("v1.0.0", true), ("v1.0.1", false), ("v1.0.1", true)] ∧
    (match findApp dupScenario "demo3" with
     | some app => app.versions.countP (·.isActive)
     | none => 0) = 2 := by
  decide

end PoorMansLovable
